import Mathlib

/-!
Verification of the qubic-api sampling pipeline (`network_stats.py`, `tool.py`).

Shallow embedding conventions:
* Time instants are whole seconds on a timeline whose origin is a Monday
  00:00:00 UTC (e.g. 1970-01-05), so Python's `datetime.weekday()` of an
  instant `t` is `(t / 86400) % 7` (Monday = 0, Wednesday = 2), matching
  `pytz.UTC` arithmetic at second granularity.
* Python floats are modelled as exact rationals (`ℚ`); Python `int(x)`
  truncation toward zero is `py_int`; Python `abs` is `py_abs`.
* Mongo collections are Lean lists; `find_one(sort=[("timestamp", -1)])`
  returns an element of maximal timestamp; `delete_many({timestamp: {lt p}})`
  filters the list; `insert_one` appends; `find(...).sort("timestamp", 1)`
  is a stable ascending sort (`List.insertionSort`, as Python's `sorted`).
* Missing JSON fields are `Option.none`; `d.get(key, default)` is `getD`.
-/

/-- Python `abs` on a rational. -/
def py_abs (q : ℚ) : ℚ := if q < 0 then -q else q

/-- Python `int(x)` for `x : ℚ` (truncation toward zero). -/
def py_int (q : ℚ) : ℤ := Int.tdiv q.num q.den

/-- A document of the `network_stats` collection
(`record` built at `network_stats.py:227`). -/
structure Sample where
  timestamp : ℕ
  period_start : ℤ
  qli_hashrate : ℚ
  apool_hashrate : ℚ
  solutions_hashrate : ℚ
  minerlab_hashrate : ℚ
  was_idle : Bool
deriving DecidableEq

/-- The reading set logged as `hashrate_data` (`network_stats.py:151`). -/
structure HashrateData where
  qli : ℚ
  apool : ℚ
  solutions : ℚ
  minerlab : ℚ
deriving DecidableEq

/-- The per-reading pass/fail map `validation_results` (`network_stats.py:159`). -/
structure ValidationResults where
  qli : Bool
  apool : Bool
  solutions : Bool
  minerlab : Bool
deriving DecidableEq

/-- Structured `data` payload attached to some log entries. -/
inductive LogData where
  | hashrates (h : HashrateData)
  | validation (h : HashrateData) (v : ValidationResults)
deriving DecidableEq

/-- A document of the `network_stats_logs` collection
(`log_entry` built at `network_stats.py:43`). -/
structure LogEntry where
  timestamp : ℕ
  period_start : ℤ
  event_type : String
  message : String
  data : Option LogData
deriving DecidableEq

/-- The two persisted collections. -/
structure DB where
  samples : List Sample
  logs : List LogEntry
deriving DecidableEq

/-- `find_one(sort=[("timestamp", -1)])` over the samples collection:
an element of maximal timestamp (`none` when empty). -/
def findLatestSample (l : List Sample) : Option Sample :=
  l.foldl (fun acc s =>
    match acc with
    | none => some s
    | some t => if t.timestamp < s.timestamp then some s else some t) none

/-- `find_one(sort=[("timestamp", -1)])` over the logs collection. -/
def findLatestLog (l : List LogEntry) : Option LogEntry :=
  l.foldl (fun acc e =>
    match acc with
    | none => some e
    | some t => if t.timestamp < e.timestamp then some e else some t) none

/-- Period anchor computation as written in `calculate_network_stats`
(`network_stats.py:204-211`): subtract `(weekday - 2) % 7` days, snap the
time of day to 12:00:00, and go one week back if that lands in the future. -/
def period_start_calc (current_time : ℕ) : ℤ :=
  let d : ℕ := current_time / 86400
  let current_weekday : ℕ := d % 7
  let days_since_wednesday : ℤ := ((current_weekday : ℤ) - 2) % 7
  let ps : ℤ := ((d : ℤ) - days_since_wednesday) * 86400 + 43200
  if (current_time : ℤ) < ps then ps - 7 * 86400 else ps

/-- The identical period anchor computation duplicated in
`get_network_stats_data` (`network_stats.py:257-265`). -/
def period_start_agg (current_time : ℕ) : ℤ :=
  let d : ℕ := current_time / 86400
  let current_weekday : ℕ := d % 7
  let days_since_wednesday : ℤ := ((current_weekday : ℤ) - 2) % 7
  let ps : ℤ := ((d : ℤ) - days_since_wednesday) * 86400 + 43200
  if (current_time : ℤ) < ps then ps - 7 * 86400 else ps

/-- The identical period anchor computation duplicated in
`log_network_stats_event` (`network_stats.py:21-28`). -/
def period_start_log (current_time : ℕ) : ℤ :=
  let d : ℕ := current_time / 86400
  let current_weekday : ℕ := d % 7
  let days_since_wednesday : ℤ := ((current_weekday : ℤ) - 2) % 7
  let ps : ℤ := ((d : ℤ) - days_since_wednesday) * 86400 + 43200
  if (current_time : ℤ) < ps then ps - 7 * 86400 else ps

/-- `log_network_stats_event` (`network_stats.py:11-53`): on every call,
recompute the period anchor, purge log entries older than the latest
entry's `period_start` if a newer period is observed, then append the
new entry. -/
def log_network_stats_event (current_time : ℕ) (event_type message : String)
    (data : Option LogData) (logs : List LogEntry) : List LogEntry :=
  let ps := period_start_log current_time
  let purged :=
    match findLatestLog logs with
    | some last_log =>
        if last_log.period_start < ps then
          logs.filter (fun e => ¬ ((e.timestamp : ℤ) < last_log.period_start))
        else logs
    | none => logs
  purged ++ [⟨current_time, ps, event_type, message, data⟩]

/-- `is_valid_hashrate` (`network_stats.py:58-90`). -/
def is_valid_hashrate (current_value : ℚ) (previous_values : List ℚ)
    (threshold : ℚ := 1/2) : Bool :=
  if previous_values = [] then
    true
  else if previous_values.length = 1 then
    let prev_value := previous_values.headD 0
    if prev_value = 0 then true
    else decide (py_abs (current_value - prev_value) / prev_value ≤ threshold)
  else
    let sorted_values := List.insertionSort (· ≤ ·) previous_values
    let values_for_avg :=
      if 3 ≤ sorted_values.length then (sorted_values.drop 1).dropLast
      else sorted_values
    let avg := values_for_avg.sum / (values_for_avg.length : ℚ)
    if avg = 0 then true
    else decide (py_abs (current_value - avg) / avg ≤ threshold)

/-- The fields of the `/api/qubic/tool` response that
`calculate_network_stats` reads (each via `.get` with a default, so a
missing ancestor or leaf is `none`):
`data.idle`, `data.pool_hashrate.current.qli_hashrate`, and the three
`data.<pool>.corrected_hashrate` values. -/
structure ToolData where
  idle : Option Bool
  qli_hashrate : Option ℚ
  apool_corrected_hashrate : Option ℚ
  solutions_corrected_hashrate : Option ℚ
  minerlab_corrected_hashrate : Option ℚ
deriving DecidableEq

/-- `network_stats.find({qli_hashrate: gt 0}).sort(timestamp, -1).limit(5)`
(`network_stats.py:173-176`). -/
def qli_recent_records (samples : List Sample) : List Sample :=
  (List.insertionSort (fun a b => b.timestamp ≤ a.timestamp)
    (samples.filter (fun s => decide (0 < s.qli_hashrate)))).take 5

/-- Steps of `calculate_network_stats` from hashrate extraction onward
(`network_stats.py:137-247`); reached once all three skip guards have
passed.  `is_idle` is the already-extracted idle flag (false here). -/
def calculate_validate (current_time : ℕ) (td : ToolData) (db : DB)
    (last_record : Option Sample) (is_idle : Bool) : DB :=
  let estimated_its0 := td.qli_hashrate.getD 0
  let apool_hashrate := td.apool_corrected_hashrate.getD 0
  let solutions_hashrate := td.solutions_corrected_hashrate.getD 0
  let minerlab_hashrate := td.minerlab_corrected_hashrate.getD 0
  let hashrate_data : HashrateData :=
    ⟨estimated_its0, apool_hashrate, solutions_hashrate, minerlab_hashrate⟩
  let qli_step : ℚ × Bool × List LogEntry :=
    if estimated_its0 ≤ 0 then
      let logs1 := log_network_stats_event current_time "warning"
        "QLI hashrate is non-positive" none db.logs
      let recent_records := qli_recent_records db.samples
      if recent_records = [] then (estimated_its0, false, logs1)
      else ((recent_records.map Sample.qli_hashrate).sum / (recent_records.length : ℚ),
            true,
            log_network_stats_event current_time "info"
              "Using average of last records for QLI" none logs1)
    else (estimated_its0, true, db.logs)
  let estimated_its := qli_step.1
  let qli_ok := qli_step.2.1
  let logs1 := qli_step.2.2
  let logs2 :=
    if apool_hashrate ≤ 0 ∨ solutions_hashrate ≤ 0 ∨ minerlab_hashrate ≤ 0 then
      log_network_stats_event current_time "warning"
        "Some pool hashrate is non-positive" (some (.hashrates hashrate_data)) logs1
    else logs1
  let validation_results : ValidationResults :=
    ⟨qli_ok, decide (0 < apool_hashrate), decide (0 < solutions_hashrate),
     decide (0 < minerlab_hashrate)⟩
  if ¬ (validation_results.qli && validation_results.apool &&
        validation_results.solutions && validation_results.minerlab) then
    let logs3 := log_network_stats_event current_time "validation"
        "Skipping record with abnormal values"
        (some (.validation hashrate_data validation_results)) logs2
    { db with logs := logs3 }
  else
    let period_start := period_start_calc current_time
    let samples1 :=
      match last_record with
      | some last =>
          if last.period_start < period_start then
            db.samples.filter (fun s => ¬ ((s.timestamp : ℤ) < last.period_start))
          else db.samples
      | none => db.samples
    let record : Sample :=
      ⟨current_time, period_start, estimated_its, apool_hashrate,
       solutions_hashrate, minerlab_hashrate, is_idle⟩
    { samples := samples1 ++ [record],
      logs := log_network_stats_event current_time "success"
        "Successfully recorded network stats"
        (some (.validation hashrate_data validation_results)) logs2 }

/-- Idle guard and idle-recovery guard of `calculate_network_stats`
(`network_stats.py:117-135`), then the tail of the computation. -/
def calculate_after_interval (current_time : ℕ) (td : ToolData) (db : DB)
    (last_record : Option Sample) : DB :=
  let is_idle := td.idle.getD false
  if is_idle then
    let logs1 := log_network_stats_event current_time "skip"
        "Mining is idle" none db.logs
    { db with logs := logs1 }
  else if (match last_record with
           | some l => l.was_idle && decide ((current_time : ℤ) - l.timestamp < 300)
           | none => false) then
    let logs1 := log_network_stats_event current_time "skip"
        "Only seconds since idle recovery" none db.logs
    { db with logs := logs1 }
  else
    calculate_validate current_time td db last_record is_idle

/-- `calculate_network_stats` (`network_stats.py:92-252`): fetch the latest
sample, apply the 300 s interval guard, then the remaining steps. -/
def calculate_network_stats (current_time : ℕ) (td : ToolData) (db : DB) : DB :=
  match findLatestSample db.samples with
  | some last =>
      if (current_time : ℤ) - (last.timestamp : ℤ) < 300 then
        let logs1 := log_network_stats_event current_time "skip"
            "Only seconds since last record" none db.logs
        { db with logs := logs1 }
      else calculate_after_interval current_time td db (some last)
  | none => calculate_after_interval current_time td db none

/-- Return value of `get_network_stats_data` (`network_stats.py:314-327`). -/
structure StatsResult where
  average_qli_hashrate : ℚ
  average_apool_hashrate : ℚ
  average_solutions_hashrate : ℚ
  average_minerlab_hashrate : ℚ
  record_count : ℕ
  period_start : ℤ
deriving DecidableEq

/-- Body of the sliding-window filter of `get_network_stats_data`
(`network_stats.py:282-301`) for the sample `record` at index `i` of the
ascending sequence `records`: the window is `records[i-4 : i+1]` and each
reading is validated against the window minus its last element
(`values[:-1]`).  `i + 1 - window_size` renders Python's
`i - window_size + 1` in ℕ (equal for `i ≥ 4`, the only case used). -/
def sliding_keep (records : List Sample) (i : ℕ) (record : Sample) : Bool :=
  let window_size := 5
  if i < window_size - 1 then true
  else
    let window := (records.drop (i + 1 - window_size)).take window_size
    let qli_values := window.map Sample.qli_hashrate
    let apool_values := window.map Sample.apool_hashrate
    let solutions_values := window.map Sample.solutions_hashrate
    let minerlab_values := window.map Sample.minerlab_hashrate
    is_valid_hashrate record.qli_hashrate qli_values.dropLast &&
    is_valid_hashrate record.apool_hashrate apool_values.dropLast &&
    is_valid_hashrate record.solutions_hashrate solutions_values.dropLast &&
    is_valid_hashrate record.minerlab_hashrate minerlab_values.dropLast

/-- The `records` sequence of `get_network_stats_data`
(`network_stats.py:270-272`): the current period's samples, ascending by
timestamp. -/
def agg_records (current_time : ℕ) (db : DB) : List Sample :=
  List.insertionSort (fun a b => a.timestamp ≤ b.timestamp)
    (db.samples.filter
      (fun s => decide (period_start_agg current_time ≤ (s.timestamp : ℤ))))

/-- `get_network_stats_data` (`network_stats.py:254-331`). -/
def get_network_stats_data (current_time : ℕ) (db : DB) : Option StatsResult :=
  let period_start := period_start_agg current_time
  let records := agg_records current_time db
  if records = [] then none
  else
    let valid_records :=
      (records.enum.filter (fun p => sliding_keep records p.1 p.2)).map Prod.snd
    if valid_records = [] then none
    else
      let record_count := valid_records.length
      some {
        average_qli_hashrate :=
          if 0 < record_count then
            (valid_records.map Sample.qli_hashrate).sum / (record_count : ℚ) else 0,
        average_apool_hashrate :=
          if 0 < record_count then
            (valid_records.map Sample.apool_hashrate).sum / (record_count : ℚ) else 0,
        average_solutions_hashrate :=
          if 0 < record_count then
            (valid_records.map Sample.solutions_hashrate).sum / (record_count : ℚ) else 0,
        average_minerlab_hashrate :=
          if 0 < record_count then
            (valid_records.map Sample.minerlab_hashrate).sum / (record_count : ℚ) else 0,
        record_count := record_count,
        period_start := period_start }

/-- The fields of the Apool `result` object read by `format_apool_data`
(`tool.py:122-125`). -/
structure ApoolResult where
  accepted_solution : Option ℕ
  pool_hash : Option ℚ
  total_share : Option ℕ
deriving DecidableEq

/-- An Apool payload; `result` is `none` when the key is missing. -/
structure ApoolPayload where
  result : Option ApoolResult
deriving DecidableEq

/-- Record returned by `format_apool_data` (`tool.py:127-133`). -/
structure ApoolPool where
  accepted_solution : ℕ
  pool_hash : ℤ
  total_share : ℕ
  shares_per_solution : ℤ
  corrected_hashrate : ℤ
deriving DecidableEq

/-- `format_apool_data` (`tool.py:112-133`).  `none` input models an absent
or falsy payload. -/
def format_apool_data (apool_data : Option ApoolPayload)
    (total_solutions : ℕ) : Option ApoolPool :=
  match apool_data with
  | none => none
  | some d =>
    match d.result with
    | none => none
    | some result =>
      let accepted_solution := result.accepted_solution.getD 0
      let pool_hash := py_int (result.pool_hash.getD 0)
      let total_share := result.total_share.getD 0
      some {
        accepted_solution := accepted_solution,
        pool_hash := pool_hash,
        total_share := total_share,
        shares_per_solution :=
          if accepted_solution ≠ 0 then
            py_int ((total_share : ℚ) / (accepted_solution : ℚ)) else 0,
        corrected_hashrate :=
          if accepted_solution ≠ 0 then
            py_int ((pool_hash : ℚ) / (accepted_solution : ℚ) * (total_solutions : ℚ))
          else 0 }

/-- One of the `solo` / `pplns` sub-objects of the Solutions payload. -/
structure SolutionsCategory where
  solutions : Option ℕ
  shares : Option ℕ
deriving DecidableEq

/-- The fields of the Solutions payload read by `format_solutions_data`
(`tool.py:145-149`). -/
structure SolutionsPayload where
  solo : Option SolutionsCategory
  pplns : Option SolutionsCategory
  iterrate : Option ℚ
deriving DecidableEq

/-- Record returned by `format_solutions_data` (`tool.py:151-159`). -/
structure SolutionsPool where
  accepted_solution : ℕ
  solo_solutions : ℕ
  pplns_solutions : ℕ
  pool_hash : ℤ
  total_share : ℕ
  shares_per_solution : ℤ
  corrected_hashrate : ℤ
deriving DecidableEq

/-- `format_solutions_data` (`tool.py:135-159`). -/
def format_solutions_data (solutions_data : Option SolutionsPayload)
    (total_solutions : ℕ) : Option SolutionsPool :=
  match solutions_data with
  | none => none
  | some d =>
    let solo_solutions := (d.solo.bind SolutionsCategory.solutions).getD 0
    let pplns_solutions := (d.pplns.bind SolutionsCategory.solutions).getD 0
    let accepted_solution := solo_solutions + pplns_solutions
    let total_share := (d.pplns.bind SolutionsCategory.shares).getD 0
    let pool_hash := py_int (d.iterrate.getD 0)
    some {
      accepted_solution := accepted_solution,
      solo_solutions := solo_solutions,
      pplns_solutions := pplns_solutions,
      pool_hash := pool_hash,
      total_share := total_share,
      shares_per_solution :=
        if accepted_solution ≠ 0 then
          py_int ((total_share : ℚ) / (accepted_solution : ℚ)) else 0,
      corrected_hashrate :=
        if accepted_solution ≠ 0 then
          py_int ((pool_hash : ℚ) / (accepted_solution : ℚ) * (total_solutions : ℚ))
        else 0 }

/-- One element of the Minerlab payload list (`tool.py:172-174`). -/
structure MinerlabEntry where
  currentEpochSolutions : Option ℕ
  currentIts : Option ℚ
deriving DecidableEq

/-- Record returned by `format_minerlab_data` (`tool.py:176-180`). -/
structure MinerlabPool where
  accepted_solution : ℕ
  pool_hash : ℤ
  corrected_hashrate : ℤ
deriving DecidableEq

/-- `format_minerlab_data` (`tool.py:161-180`).  `none` or `some []` model
the falsy / empty-list inputs that return `None`. -/
def format_minerlab_data (minerlab_data : Option (List MinerlabEntry))
    (total_solutions : ℕ) : Option MinerlabPool :=
  match minerlab_data with
  | none => none
  | some [] => none
  | some (data :: _) =>
    let accepted_solution := data.currentEpochSolutions.getD 0
    let pool_hash := py_int (data.currentIts.getD 0)
    some {
      accepted_solution := accepted_solution,
      pool_hash := pool_hash,
      corrected_hashrate :=
        if accepted_solution ≠ 0 then
          py_int ((pool_hash : ℚ) / (accepted_solution : ℚ) * (total_solutions : ℚ))
        else 0 }

/-- Claim-side formulation for the three-plus-history case of C2, following
the spec's words: sort the history ascending, drop the single lowest and the
single highest value, and average the remainder. -/
def spec_trimmed_avg (l : List ℚ) : ℚ :=
  let s := List.insertionSort (· ≤ ·) l
  let core := (s.drop 1).dropLast
  core.sum / (core.length : ℚ)

/-- Claim-side keep condition for C3: the first 4 samples of the period are
accepted unconditionally; from the 5th onward a sample is kept iff all four
of its readings pass `is_valid_hashrate` against the 4 samples immediately
preceding it in the raw sequence (not including itself). -/
def agg_keep (records : List Sample) (i : ℕ) (r : Sample) : Bool :=
  decide (i < 4) ||
  (is_valid_hashrate r.qli_hashrate
      (((records.drop (i - 4)).take 4).map Sample.qli_hashrate) &&
   is_valid_hashrate r.apool_hashrate
      (((records.drop (i - 4)).take 4).map Sample.apool_hashrate) &&
   is_valid_hashrate r.solutions_hashrate
      (((records.drop (i - 4)).take 4).map Sample.solutions_hashrate) &&
   is_valid_hashrate r.minerlab_hashrate
      (((records.drop (i - 4)).take 4).map Sample.minerlab_hashrate))

/-- Claim-side surviving subsequence for C3. -/
def spec_kept (current_time : ℕ) (db : DB) : List Sample :=
  let records := agg_records current_time db
  (records.enum.filter (fun p => agg_keep records p.1 p.2)).map Prod.snd

/-- Concrete store for the C5 scenario: one recent sample (100 s old at
evaluation time) and two log entries, the latest belonging to the previous
period. -/
def c5_db : DB :=
  ⟨[⟨31667500, 31665600, 1, 1, 1, 1, false⟩],
   [⟨1000, 30000000, "success", "old entry", none⟩,
    ⟨31667400, 31060800, "success", "previous entry", none⟩]⟩

/-- Concrete snapshot for the C5 scenario: not idle, all readings 1. -/
def c5_td : ToolData := ⟨some false, some 1, some 1, some 1, some 1⟩

/-- Concrete store for the C1 scenario: five settled samples of the current
period, all four readings steady at 100. -/
def c1_db : DB :=
  ⟨[⟨31665700, 31665600, 100, 100, 100, 100, false⟩,
    ⟨31666000, 31665600, 100, 100, 100, 100, false⟩,
    ⟨31666300, 31665600, 100, 100, 100, 100, false⟩,
    ⟨31666600, 31665600, 100, 100, 100, 100, false⟩,
    ⟨31666900, 31665600, 100, 100, 100, 100, false⟩], []⟩

/-- Concrete snapshot for the C1 scenario: a tenfold QLI jump, the pools
steady. -/
def c1_td : ToolData := ⟨some false, some 1000, some 100, some 100, some 100⟩

/-- Concrete store for the C7 scenario: one settled sample with positive
QLI history. -/
def c7_db : DB := ⟨[⟨31666900, 31665600, 100, 100, 100, 100, false⟩], []⟩

/-- Concrete snapshot for the C7 scenario: QLI reading 0, pools positive. -/
def c7_td : ToolData := ⟨some false, some 0, some 100, some 100, some 100⟩

/-- Concrete store for the C6 scenario: one sample older than the previous
period anchor and one latest sample of the previous period, both with
positive QLI values. -/
def c6_db : DB :=
  ⟨[⟨30000000, 30456000, 1, 1, 1, 1, false⟩,
    ⟨31665000, 31060800, 100, 1, 1, 1, false⟩], []⟩

/-- Concrete snapshot for the C6 scenario: QLI reading 0 (so the commit
goes through the historical-mean fallback), pools positive. -/
def c6_td : ToolData := ⟨some false, some 0, some 2, some 2, some 2⟩

lemma py_abs_eq_abs (q : ℚ) : py_abs q = |q| := by
  unfold py_abs
  rcases lt_or_le q 0 with h | h
  · rw [if_pos h, abs_of_neg h]
  · rw [if_neg (not_lt.mpr h), abs_of_nonneg h]

lemma py_int_eq_floor {q : ℚ} (h : 0 ≤ q) : py_int q = ⌊q⌋ := by
  unfold py_int
  rw [Rat.floor_def]
  exact Int.tdiv_eq_ediv (Rat.num_nonneg.mpr h) (Int.ofNat_nonneg q.den)

lemma py_int_nonneg {q : ℚ} (h : 0 ≤ q) : 0 ≤ py_int q := by
  rw [py_int_eq_floor h]
  exact Int.floor_nonneg.mpr h

lemma is_valid_hashrate_two_le (v : ℚ) (l : List ℚ) (hl : 2 ≤ l.length) :
    (is_valid_hashrate v l = true ↔
      (let s := List.insertionSort (· ≤ ·) l
       let core := if 3 ≤ s.length then (s.drop 1).dropLast else s
       let avg := core.sum / (core.length : ℚ)
       avg = 0 ∨ |v - avg| / avg ≤ 1/2)) := by
  have h0 : ¬ (l = []) := by
    intro h
    rw [h] at hl
    simp at hl
  have h1 : ¬ (l.length = 1) := by omega
  unfold is_valid_hashrate
  rw [if_neg h0, if_neg h1]
  dsimp only
  by_cases hz :
      ((if 3 ≤ (List.insertionSort (· ≤ ·) l).length then
          ((List.insertionSort (· ≤ ·) l).drop 1).dropLast
        else List.insertionSort (· ≤ ·) l).sum /
        (((if 3 ≤ (List.insertionSort (· ≤ ·) l).length then
          ((List.insertionSort (· ≤ ·) l).drop 1).dropLast
        else List.insertionSort (· ≤ ·) l).length : ℕ) : ℚ)) = 0
  · rw [if_pos hz]
    exact iff_of_true rfl (Or.inl hz)
  · rw [if_neg hz]
    simp only [py_abs_eq_abs, decide_eq_true_eq]
    constructor
    · intro h
      exact Or.inr h
    · intro h
      rcases h with h | h
      · exact absurd h hz
      · exact h

/-- C2: `is_valid_hashrate` is always valid on empty history; with one
historical value `h` it is valid iff `h = 0` or `|v - h| / h ≤ 1/2`
(boundary inclusive); with two historical values it compares against the
plain mean of both; with three or more it compares against the trimmed
mean (sorted history minus its single lowest and single highest value),
accepting iff that mean is `0` or the relative change is at most `1/2`. -/
theorem C2_is_valid_hashrate_cases (v : ℚ) :
    is_valid_hashrate v [] = true ∧
    (∀ h : ℚ, (is_valid_hashrate v [h] = true ↔ h = 0 ∨ |v - h| / h ≤ 1/2)) ∧
    (∀ a b : ℚ, (is_valid_hashrate v [a, b] = true ↔
      (a + b) / 2 = 0 ∨ |v - (a + b) / 2| / ((a + b) / 2) ≤ 1/2)) ∧
    (∀ l : List ℚ, 3 ≤ l.length →
      (is_valid_hashrate v l = true ↔
        spec_trimmed_avg l = 0 ∨
          |v - spec_trimmed_avg l| / spec_trimmed_avg l ≤ 1/2)) := by
  refine ⟨by simp [is_valid_hashrate], fun h => ?_, fun a b => ?_, fun l hl => ?_⟩
  · by_cases h0 : h = 0
    · simp [is_valid_hashrate, h0]
    · simp [is_valid_hashrate, h0, py_abs_eq_abs]
  · rw [is_valid_hashrate_two_le v [a, b] (by norm_num)]
    by_cases hab : a ≤ b
    · have hs : List.insertionSort (· ≤ ·) [a, b] = [a, b] := by
        simp [List.insertionSort, List.orderedInsert, hab]
      dsimp only
      rw [hs]
      norm_num
    · have hs : List.insertionSort (· ≤ ·) [a, b] = [b, a] := by
        simp [List.insertionSort, List.orderedInsert, hab]
      dsimp only
      rw [hs, add_comm a b]
      norm_num
  · rw [is_valid_hashrate_two_le v l (by omega)]
    have hlen : 3 ≤ (List.insertionSort (· ≤ ·) l).length := by
      rw [List.length_insertionSort]
      exact hl
    dsimp only
    rw [if_pos hlen]
    unfold spec_trimmed_avg
    dsimp only
    exact Iff.rfl

/-- Witness for C2 at the spec's own trimmed-mean example history. -/
theorem C2_witness :
    3 ≤ ([10, 100, 12, 11] : List ℚ).length ∧
      is_valid_hashrate 12 [10, 100, 12, 11] = true := by
  refine ⟨by norm_num, ?_⟩
  rw [(C2_is_valid_hashrate_cases 12).2.2.2 [10, 100, 12, 11] (by norm_num)]
  have havg : spec_trimmed_avg [10, 100, 12, 11] = 23/2 := by
    norm_num [spec_trimmed_avg, List.insertionSort, List.orderedInsert]
  rw [havg]
  right
  rw [abs_of_nonneg (by norm_num : (0:ℚ) ≤ 12 - 23/2)]
  norm_num

lemma period_start_calc_spec (t : ℕ) :
    period_start_calc t ≤ (t : ℤ) ∧ period_start_calc t % 604800 = 216000 ∧
      (t : ℤ) - period_start_calc t < 604800 := by
  unfold period_start_calc
  dsimp only
  split_ifs with h <;> omega

/-- C4: the period anchor computed by the Sampling Engine is the greatest
instant at or before `t` that is a Wednesday 12:00:00 UTC (a second offset
congruent to `216000` modulo `604800` on the Monday-anchored timeline); the
Period Aggregator's duplicated computation agrees for all `t`; and at
Wednesday 11:59:59 / 12:00:01 it yields the previous / the same Wednesday
noon respectively. -/
theorem C4_period_anchor :
    (∀ t : ℕ, IsGreatest {s : ℤ | s ≤ (t : ℤ) ∧ s % 604800 = 216000}
      (period_start_calc t)) ∧
    (∀ t : ℕ, period_start_calc t = period_start_agg t) ∧
    period_start_calc (52 * 604800 + 215999) = 51 * 604800 + 216000 ∧
    period_start_calc (52 * 604800 + 216001) = 52 * 604800 + 216000 := by
  refine ⟨fun t => ?_, fun t => rfl, by decide, by decide⟩
  obtain ⟨h1, h2, h3⟩ := period_start_calc_spec t
  exact ⟨⟨h1, h2⟩, fun s hs => by obtain ⟨hs1, hs2⟩ := hs; omega⟩

/-- Witness for C4: the previous Wednesday noon is a lower bound of the
anchor computed one second before Wednesday noon of week 52. -/
theorem C4_witness :
    (51 * 604800 + 216000 : ℤ) ≤ period_start_calc (52 * 604800 + 215999) :=
  (C4_period_anchor.1 (52 * 604800 + 215999)).2 (by exact ⟨by decide, by decide⟩)

lemma take_five_dropLast {α : Type _} (x : List α) (hx : 5 ≤ x.length) :
    (x.take 5).dropLast = x.take 4 := by
  rw [List.dropLast_eq_take, List.length_take, min_eq_left hx, List.take_take]
  norm_num

lemma sliding_keep_eq_agg_keep (records : List Sample) (i : ℕ) (r : Sample)
    (hi : i < records.length) :
    sliding_keep records i r = agg_keep records i r := by
  unfold sliding_keep agg_keep
  dsimp only
  by_cases h4 : i < 4
  · rw [if_pos (by omega : i < 5 - 1)]
    simp [h4]
  · rw [if_neg (by omega : ¬ i < 5 - 1)]
    have hlen : 5 ≤ (records.drop (i + 1 - 5)).length := by
      rw [List.length_drop]
      omega
    have e1 : i + 1 - 5 = i - 4 := by omega
    rw [e1] at hlen
    rw [e1, ← List.map_dropLast, ← List.map_dropLast, ← List.map_dropLast,
      ← List.map_dropLast, take_five_dropLast _ hlen]
    simp [h4]

lemma filter_sliding_eq_spec_kept (records : List Sample) :
    records.enum.filter (fun p => sliding_keep records p.1 p.2) =
      records.enum.filter (fun p => agg_keep records p.1 p.2) := by
  refine List.filter_congr (fun p hp => ?_)
  obtain ⟨i, r⟩ := p
  have hi : i < records.length := by
    have h := List.mem_enumFrom (show (i, r) ∈ records.enumFrom 0 from hp)
    omega
  exact sliding_keep_eq_agg_keep records i r hi

/-- C3: over the period's samples in ascending timestamp order, the Period
Aggregator accepts the first 4 samples unconditionally and keeps each later
sample iff all four readings pass `is_valid_hashrate` against the 4
immediately preceding samples of the raw sequence; it returns `none` iff
the period holds no samples or the filter keeps none, and otherwise returns
the arithmetic mean of each hashrate field over the kept samples, the count
kept, and the period's start instant. -/
theorem C3_aggregator_spec (current_time : ℕ) (db : DB) :
    (get_network_stats_data current_time db = none ↔
      agg_records current_time db = [] ∨ spec_kept current_time db = []) ∧
    (∀ res, get_network_stats_data current_time db = some res →
      res.record_count = (spec_kept current_time db).length ∧
      res.average_qli_hashrate =
        ((spec_kept current_time db).map Sample.qli_hashrate).sum /
          ((spec_kept current_time db).length : ℚ) ∧
      res.average_apool_hashrate =
        ((spec_kept current_time db).map Sample.apool_hashrate).sum /
          ((spec_kept current_time db).length : ℚ) ∧
      res.average_solutions_hashrate =
        ((spec_kept current_time db).map Sample.solutions_hashrate).sum /
          ((spec_kept current_time db).length : ℚ) ∧
      res.average_minerlab_hashrate =
        ((spec_kept current_time db).map Sample.minerlab_hashrate).sum /
          ((spec_kept current_time db).length : ℚ) ∧
      res.period_start = period_start_agg current_time) := by
  unfold get_network_stats_data spec_kept
  dsimp only
  rw [filter_sliding_eq_spec_kept (agg_records current_time db)]
  by_cases h1 : agg_records current_time db = []
  · rw [if_pos h1]
    refine ⟨by simp [h1], by simp⟩
  · rw [if_neg h1]
    by_cases h2 :
        ((agg_records current_time db).enum.filter
          (fun p => agg_keep (agg_records current_time db) p.1 p.2)).map
            Prod.snd = []
    · rw [if_pos h2]
      refine ⟨by simp [h1, h2], by simp⟩
    · rw [if_neg h2]
      have hpos :
          0 < (((agg_records current_time db).enum.filter
            (fun p => agg_keep (agg_records current_time db) p.1 p.2)).map
              Prod.snd).length :=
        List.length_pos.mpr h2
      refine ⟨by simp [h1, h2], fun res hres => ?_⟩
      have h := (Option.some.inj hres).symm
      subst h
      simp only [if_pos hpos]
      refine ⟨?_, ?_, ?_, ?_, ?_, ?_⟩ <;> first
        | rfl
        | trivial

/-- Witness for C3: one in-period sample makes the aggregator return a
result (the record sequence and the kept subsequence are nonempty). -/
theorem C3_witness :
    get_network_stats_data (52 * 604800 + 216200)
      ⟨[⟨52 * 604800 + 216100, 0, 1, 1, 1, 1, false⟩], []⟩ ≠ none := by
  intro hnone
  rcases (C3_aggregator_spec (52 * 604800 + 216200)
      ⟨[⟨52 * 604800 + 216100, 0, 1, 1, 1, 1, false⟩], []⟩).1.mp hnone with h | h
  · exact absurd h (by decide)
  · exact absurd h (by decide)

/-- C8 counterexample: an Apool payload whose `result` object is present but
empty is NOT mapped to `None`; every missing nested field is zero-filled
into the returned record's arithmetic. -/
theorem C8_counterexample :
    format_apool_data (some ⟨some ⟨none, none, none⟩⟩) 5 ≠ none ∧
    format_apool_data (some ⟨some ⟨none, none, none⟩⟩) 5 =
      some ⟨0, 0, 0, 0, 0⟩ := by
  constructor
  · intro h
    simp [format_apool_data] at h
  · norm_num [format_apool_data, py_int]

/-- C8 amended: only a wholly absent payload (for Apool also a payload
without `result`, for Minerlab also an empty list) yields `none`; any
present payload yields a record without crashing, with missing nested
fields defaulted to `0` (zero-filled), as the empty Solutions payload
shows. -/
theorem C8_absent_handling (total_solutions : ℕ) :
    format_apool_data none total_solutions = none ∧
    (∀ d : ApoolPayload, d.result = none →
      format_apool_data (some d) total_solutions = none) ∧
    (∀ r : ApoolResult,
      ∃ out, format_apool_data (some ⟨some r⟩) total_solutions = some out) ∧
    format_solutions_data none total_solutions = none ∧
    (∀ d : SolutionsPayload,
      ∃ out, format_solutions_data (some d) total_solutions = some out) ∧
    format_minerlab_data none total_solutions = none ∧
    format_minerlab_data (some []) total_solutions = none ∧
    (∀ (e : MinerlabEntry) (rest : List MinerlabEntry),
      ∃ out, format_minerlab_data (some (e :: rest)) total_solutions = some out) ∧
    format_solutions_data (some ⟨none, none, none⟩) total_solutions =
      some ⟨0, 0, 0, 0, 0, 0, 0⟩ := by
  refine ⟨rfl, ?_, ?_, rfl, ?_, rfl, rfl, ?_, ?_⟩
  · intro d hd
    obtain ⟨res⟩ := d
    cases hd
    rfl
  · intro r
    exact ⟨_, rfl⟩
  · intro d
    exact ⟨_, rfl⟩
  · intro e rest
    exact ⟨_, rfl⟩
  · norm_num [format_solutions_data, py_int]

/-- Witness for C8: an Apool payload lacking the `result` key maps to
`none`. -/
theorem C8_witness : format_apool_data (some ⟨none⟩) 3 = none :=
  (C8_absent_handling 3).2.1 ⟨none⟩ rfl

lemma py_int_ite_floor (acc : ℕ) (ph : ℤ) (t : ℕ) (hph : 0 ≤ ph) :
    (if acc ≠ 0 then py_int ((ph : ℚ) / (acc : ℚ) * (t : ℚ)) else 0) =
      (if acc = 0 then 0 else ⌊(ph : ℚ) / (acc : ℚ) * (t : ℚ)⌋) := by
  by_cases hacc : acc = 0
  · simp [hacc]
  · rw [if_pos hacc, if_neg hacc]
    refine py_int_eq_floor ?_
    have h1 : (0:ℚ) ≤ (ph : ℚ) := Int.cast_nonneg.mpr hph
    positivity

/-- C9: in every pool normalizer, with a non-negative reported raw hashrate,
`corrected_hashrate` is the exact mathematical floor of
`pool_hash / accepted_solutions * total_network_solutions` when
`accepted_solutions > 0` (equivalently `≠ 0`), and `0` when
`accepted_solutions = 0`. -/
theorem C9_corrected_hashrate_floor :
    (∀ (total_solutions : ℕ) (r : ApoolResult), 0 ≤ r.pool_hash.getD 0 →
      ∃ out, format_apool_data (some ⟨some r⟩) total_solutions = some out ∧
        out.pool_hash = py_int (r.pool_hash.getD 0) ∧
        out.accepted_solution = r.accepted_solution.getD 0 ∧
        out.corrected_hashrate =
          if out.accepted_solution = 0 then 0
          else ⌊(out.pool_hash : ℚ) / (out.accepted_solution : ℚ) *
            (total_solutions : ℚ)⌋) ∧
    (∀ (total_solutions : ℕ) (d : SolutionsPayload), 0 ≤ d.iterrate.getD 0 →
      ∃ out, format_solutions_data (some d) total_solutions = some out ∧
        out.pool_hash = py_int (d.iterrate.getD 0) ∧
        out.accepted_solution = (d.solo.bind SolutionsCategory.solutions).getD 0 +
          (d.pplns.bind SolutionsCategory.solutions).getD 0 ∧
        out.corrected_hashrate =
          if out.accepted_solution = 0 then 0
          else ⌊(out.pool_hash : ℚ) / (out.accepted_solution : ℚ) *
            (total_solutions : ℚ)⌋) ∧
    (∀ (total_solutions : ℕ) (e : MinerlabEntry) (rest : List MinerlabEntry),
      0 ≤ e.currentIts.getD 0 →
      ∃ out, format_minerlab_data (some (e :: rest)) total_solutions = some out ∧
        out.pool_hash = py_int (e.currentIts.getD 0) ∧
        out.accepted_solution = e.currentEpochSolutions.getD 0 ∧
        out.corrected_hashrate =
          if out.accepted_solution = 0 then 0
          else ⌊(out.pool_hash : ℚ) / (out.accepted_solution : ℚ) *
            (total_solutions : ℚ)⌋) := by
  exact ⟨fun t r hr => ⟨_, rfl, rfl, rfl,
           py_int_ite_floor _ _ _ (py_int_nonneg hr)⟩,
         fun t d hr => ⟨_, rfl, rfl, rfl,
           py_int_ite_floor _ _ _ (py_int_nonneg hr)⟩,
         fun t e rest hr => ⟨_, rfl, rfl, rfl,
           py_int_ite_floor _ _ _ (py_int_nonneg hr)⟩⟩

/-- Witness for C9: Apool with 3 accepted solutions, raw hashrate 100 and
7 total network solutions. -/
theorem C9_witness :
    0 ≤ ((ApoolResult.mk (some 3) (some 100) (some 7)).pool_hash.getD 0) ∧
    ∃ out, format_apool_data
        (some ⟨some (ApoolResult.mk (some 3) (some 100) (some 7))⟩) 7 = some out ∧
      out.pool_hash =
        py_int ((ApoolResult.mk (some 3) (some 100) (some 7)).pool_hash.getD 0) ∧
      out.accepted_solution =
        (ApoolResult.mk (some 3) (some 100) (some 7)).accepted_solution.getD 0 ∧
      out.corrected_hashrate =
        if out.accepted_solution = 0 then 0
        else ⌊(out.pool_hash : ℚ) / (out.accepted_solution : ℚ) * ((7:ℕ) : ℚ)⌋ :=
  ⟨by rw [Option.getD_some]; norm_num,
   C9_corrected_hashrate_floor.1 7 (ApoolResult.mk (some 3) (some 100) (some 7))
     (by rw [Option.getD_some]; norm_num)⟩

lemma log_event_getLast (ct : ℕ) (ty msg : String) (d : Option LogData)
    (logs : List LogEntry) :
    (log_network_stats_event ct ty msg d logs).getLast? =
      some ⟨ct, period_start_log ct, ty, msg, d⟩ := by
  unfold log_network_stats_event
  exact List.getLast?_concat _

lemma mem_log_event_of_ps_le (ct : ℕ) (ty msg : String) (d : Option LogData)
    (logs : List LogEntry) (e : LogEntry) (he : e ∈ logs)
    (hts : period_start_log ct ≤ (e.timestamp : ℤ)) :
    e ∈ log_network_stats_event ct ty msg d logs := by
  unfold log_network_stats_event
  dsimp only
  apply List.mem_append_left
  rcases hfl : findLatestLog logs with _ | ll
  · exact he
  · dsimp only
    by_cases hlt : ll.period_start < period_start_log ct
    · rw [if_pos hlt]
      refine List.mem_filter.mpr ⟨he, ?_⟩
      simp only [decide_eq_true_eq]
      omega
    · rw [if_neg hlt]
      exact he

lemma findLatestSample_mem_aux (l : List Sample) (acc : Option Sample)
    (x : Sample)
    (h : l.foldl (fun acc s =>
      match acc with
      | none => some s
      | some t => if t.timestamp < s.timestamp then some s else some t) acc
        = some x) :
    x ∈ l ∨ acc = some x := by
  induction l generalizing acc with
  | nil => exact Or.inr h
  | cons a l ih =>
    simp only [List.foldl_cons] at h
    rcases ih _ h with hx | hx
    · exact Or.inl (List.mem_cons_of_mem a hx)
    · rcases acc with _ | t
      · simp only [Option.some.injEq] at hx
        exact Or.inl (hx ▸ List.mem_cons_self a l)
      · dsimp only at hx
        by_cases ht : t.timestamp < a.timestamp
        · rw [if_pos ht] at hx
          simp only [Option.some.injEq] at hx
          exact Or.inl (hx ▸ List.mem_cons_self a l)
        · rw [if_neg ht] at hx
          exact Or.inr hx

lemma findLatestSample_mem {l : List Sample} {x : Sample}
    (h : findLatestSample l = some x) : x ∈ l := by
  rcases findLatestSample_mem_aux l none x h with hx | hx
  · exact hx
  · exact absurd hx (by simp)

lemma calculate_reaches_validate (ct : ℕ) (td : ToolData) (db : DB)
    (hInt : ∀ l, findLatestSample db.samples = some l →
      ¬ ((ct : ℤ) - l.timestamp < 300))
    (hIdle : td.idle.getD false = false) :
    calculate_network_stats ct td db =
      calculate_validate ct td db (findLatestSample db.samples) false := by
  unfold calculate_network_stats calculate_after_interval
  rcases hfl : findLatestSample db.samples with _ | last
  · dsimp only
    simp [hIdle]
  · dsimp only
    rw [if_neg (hInt last hfl)]
    have hdec : decide ((ct : ℤ) - last.timestamp < 300) = false :=
      decide_eq_false (hInt last hfl)
    simp [hIdle, hdec]

lemma calculate_validate_commit (ct : ℕ) (td : ToolData) (db : DB)
    (lastr : Option Sample)
    (h4 : ¬ (td.qli_hashrate.getD 0 ≤ 0))
    (h5 : ¬ (td.apool_corrected_hashrate.getD 0 ≤ 0))
    (h6 : ¬ (td.solutions_corrected_hashrate.getD 0 ≤ 0))
    (h7 : ¬ (td.minerlab_corrected_hashrate.getD 0 ≤ 0)) :
    calculate_validate ct td db lastr false =
      ⟨(match lastr with
        | some last =>
            if last.period_start < period_start_calc ct then
              db.samples.filter (fun s => ¬ ((s.timestamp : ℤ) < last.period_start))
            else db.samples
        | none => db.samples) ++
        [⟨ct, period_start_calc ct, td.qli_hashrate.getD 0,
          td.apool_corrected_hashrate.getD 0,
          td.solutions_corrected_hashrate.getD 0,
          td.minerlab_corrected_hashrate.getD 0, false⟩],
       log_network_stats_event ct "success" "Successfully recorded network stats"
         (some (.validation
           ⟨td.qli_hashrate.getD 0, td.apool_corrected_hashrate.getD 0,
            td.solutions_corrected_hashrate.getD 0,
            td.minerlab_corrected_hashrate.getD 0⟩
           ⟨true, true, true, true⟩)) db.logs⟩ := by
  have hOr : ¬ (td.apool_corrected_hashrate.getD 0 ≤ 0 ∨
      td.solutions_corrected_hashrate.getD 0 ≤ 0 ∨
      td.minerlab_corrected_hashrate.getD 0 ≤ 0) := by
    intro hc
    rcases hc with hc | hc | hc
    · exact h5 hc
    · exact h6 hc
    · exact h7 hc
  unfold calculate_validate
  dsimp only
  simp only [if_neg h4]
  simp only [decide_eq_true (not_le.mp h5), decide_eq_true (not_le.mp h6),
    decide_eq_true (not_le.mp h7)]
  simp only [Bool.and_self, Bool.and_true, not_true_eq_false, if_false,
    if_neg hOr]

lemma calculate_validate_fallback (ct : ℕ) (td : ToolData) (db : DB)
    (lastr : Option Sample)
    (h4 : td.qli_hashrate.getD 0 ≤ 0)
    (hrec : ¬ (qli_recent_records db.samples = []))
    (h5 : ¬ (td.apool_corrected_hashrate.getD 0 ≤ 0))
    (h6 : ¬ (td.solutions_corrected_hashrate.getD 0 ≤ 0))
    (h7 : ¬ (td.minerlab_corrected_hashrate.getD 0 ≤ 0)) :
    calculate_validate ct td db lastr false =
      ⟨(match lastr with
        | some last =>
            if last.period_start < period_start_calc ct then
              db.samples.filter (fun s => ¬ ((s.timestamp : ℤ) < last.period_start))
            else db.samples
        | none => db.samples) ++
        [⟨ct, period_start_calc ct,
          ((qli_recent_records db.samples).map Sample.qli_hashrate).sum /
            ((qli_recent_records db.samples).length : ℚ),
          td.apool_corrected_hashrate.getD 0,
          td.solutions_corrected_hashrate.getD 0,
          td.minerlab_corrected_hashrate.getD 0, false⟩],
       log_network_stats_event ct "success" "Successfully recorded network stats"
         (some (.validation
           ⟨td.qli_hashrate.getD 0, td.apool_corrected_hashrate.getD 0,
            td.solutions_corrected_hashrate.getD 0,
            td.minerlab_corrected_hashrate.getD 0⟩
           ⟨true, true, true, true⟩))
         (log_network_stats_event ct "info"
           "Using average of last records for QLI" none
           (log_network_stats_event ct "warning"
             "QLI hashrate is non-positive" none db.logs))⟩ := by
  have hOr : ¬ (td.apool_corrected_hashrate.getD 0 ≤ 0 ∨
      td.solutions_corrected_hashrate.getD 0 ≤ 0 ∨
      td.minerlab_corrected_hashrate.getD 0 ≤ 0) := by
    intro hc
    rcases hc with hc | hc | hc
    · exact h5 hc
    · exact h6 hc
    · exact h7 hc
  unfold calculate_validate
  dsimp only
  simp only [if_pos h4, if_neg hrec]
  simp only [decide_eq_true (not_le.mp h5), decide_eq_true (not_le.mp h6),
    decide_eq_true (not_le.mp h7)]
  simp only [Bool.and_self, Bool.and_true, not_true_eq_false, if_false,
    if_neg hOr]

lemma calculate_validate_fail (ct : ℕ) (td : ToolData) (db : DB)
    (lastr : Option Sample)
    (hfail : ((if td.qli_hashrate.getD 0 ≤ 0 then
                 (if qli_recent_records db.samples = [] then false else true)
               else true) &&
              decide (0 < td.apool_corrected_hashrate.getD 0) &&
              decide (0 < td.solutions_corrected_hashrate.getD 0) &&
              decide (0 < td.minerlab_corrected_hashrate.getD 0)) = false) :
    (calculate_validate ct td db lastr false).samples = db.samples ∧
    (calculate_validate ct td db lastr false).logs.getLast? =
      some ⟨ct, period_start_log ct, "validation",
        "Skipping record with abnormal values",
        some (.validation
          ⟨td.qli_hashrate.getD 0, td.apool_corrected_hashrate.getD 0,
           td.solutions_corrected_hashrate.getD 0,
           td.minerlab_corrected_hashrate.getD 0⟩
          ⟨(if td.qli_hashrate.getD 0 ≤ 0 then
              (if qli_recent_records db.samples = [] then false else true)
            else true),
           decide (0 < td.apool_corrected_hashrate.getD 0),
           decide (0 < td.solutions_corrected_hashrate.getD 0),
           decide (0 < td.minerlab_corrected_hashrate.getD 0)⟩)⟩ := by
  unfold calculate_validate
  dsimp only
  by_cases h0 : td.qli_hashrate.getD 0 ≤ 0
  · simp only [if_pos h0] at hfail ⊢
    by_cases hr : qli_recent_records db.samples = []
    · simp only [if_pos hr] at hfail ⊢
      rw [if_pos (by simp)]
      exact ⟨rfl, log_event_getLast ct _ _ _ _⟩
    · simp only [if_neg hr] at hfail ⊢
      rw [if_pos (by simp only [hfail]; exact Bool.false_ne_true)]
      exact ⟨rfl, log_event_getLast ct _ _ _ _⟩
  · simp only [if_neg h0] at hfail ⊢
    rw [if_pos (by simp only [hfail]; exact Bool.false_ne_true)]
    exact ⟨rfl, log_event_getLast ct _ _ _ _⟩

lemma mem_log_event_self (ct : ℕ) (ty msg : String) (d : Option LogData)
    (logs : List LogEntry) :
    (⟨ct, period_start_log ct, ty, msg, d⟩ : LogEntry) ∈
      log_network_stats_event ct ty msg d logs := by
  unfold log_network_stats_event
  exact List.mem_append_right _ (List.mem_singleton.mpr rfl)

lemma warning_mem_calculate_validate (ct : ℕ) (td : ToolData) (db : DB)
    (lastr : Option Sample) (h4 : td.qli_hashrate.getD 0 ≤ 0) :
    (⟨ct, period_start_log ct, "warning", "QLI hashrate is non-positive",
      none⟩ : LogEntry) ∈ (calculate_validate ct td db lastr false).logs := by
  have hle : period_start_log ct ≤ ((ct : ℕ) : ℤ) := (period_start_calc_spec ct).1
  have base : (⟨ct, period_start_log ct, "warning",
      "QLI hashrate is non-positive", none⟩ : LogEntry) ∈
      log_network_stats_event ct "warning" "QLI hashrate is non-positive" none
        db.logs := mem_log_event_self ct _ _ _ _
  unfold calculate_validate
  dsimp only
  simp only [if_pos h4]
  by_cases hr : qli_recent_records db.samples = []
  · simp only [if_pos hr]
    have l2 : (⟨ct, period_start_log ct, "warning",
        "QLI hashrate is non-positive", none⟩ : LogEntry) ∈
        (if td.apool_corrected_hashrate.getD 0 ≤ 0 ∨
            td.solutions_corrected_hashrate.getD 0 ≤ 0 ∨
            td.minerlab_corrected_hashrate.getD 0 ≤ 0 then
          log_network_stats_event ct "warning"
            "Some pool hashrate is non-positive"
            (some (.hashrates ⟨td.qli_hashrate.getD 0,
              td.apool_corrected_hashrate.getD 0,
              td.solutions_corrected_hashrate.getD 0,
              td.minerlab_corrected_hashrate.getD 0⟩))
            (log_network_stats_event ct "warning"
              "QLI hashrate is non-positive" none db.logs)
        else
          log_network_stats_event ct "warning"
            "QLI hashrate is non-positive" none db.logs) := by
      by_cases hp : td.apool_corrected_hashrate.getD 0 ≤ 0 ∨
          td.solutions_corrected_hashrate.getD 0 ≤ 0 ∨
          td.minerlab_corrected_hashrate.getD 0 ≤ 0
      · rw [if_pos hp]
        exact mem_log_event_of_ps_le ct _ _ _ _ _ base hle
      · rw [if_neg hp]
        exact base
    rw [if_pos (by simp)]
    exact mem_log_event_of_ps_le ct _ _ _ _ _ l2 hle
  · simp only [if_neg hr]
    have base2 : (⟨ct, period_start_log ct, "warning",
        "QLI hashrate is non-positive", none⟩ : LogEntry) ∈
        log_network_stats_event ct "info"
          "Using average of last records for QLI" none
          (log_network_stats_event ct "warning"
            "QLI hashrate is non-positive" none db.logs) :=
      mem_log_event_of_ps_le ct _ _ _ _ _ base hle
    have l2 : (⟨ct, period_start_log ct, "warning",
        "QLI hashrate is non-positive", none⟩ : LogEntry) ∈
        (if td.apool_corrected_hashrate.getD 0 ≤ 0 ∨
            td.solutions_corrected_hashrate.getD 0 ≤ 0 ∨
            td.minerlab_corrected_hashrate.getD 0 ≤ 0 then
          log_network_stats_event ct "warning"
            "Some pool hashrate is non-positive"
            (some (.hashrates ⟨td.qli_hashrate.getD 0,
              td.apool_corrected_hashrate.getD 0,
              td.solutions_corrected_hashrate.getD 0,
              td.minerlab_corrected_hashrate.getD 0⟩))
            (log_network_stats_event ct "info"
              "Using average of last records for QLI" none
              (log_network_stats_event ct "warning"
                "QLI hashrate is non-positive" none db.logs))
        else
          log_network_stats_event ct "info"
            "Using average of last records for QLI" none
            (log_network_stats_event ct "warning"
              "QLI hashrate is non-positive" none db.logs)) := by
      by_cases hp : td.apool_corrected_hashrate.getD 0 ≤ 0 ∨
          td.solutions_corrected_hashrate.getD 0 ≤ 0 ∨
          td.minerlab_corrected_hashrate.getD 0 ≤ 0
      · rw [if_pos hp]
        exact mem_log_event_of_ps_le ct _ _ _ _ _ base2 hle
      · rw [if_neg hp]
        exact base2
    by_cases hv : ¬ ((true && decide (0 < td.apool_corrected_hashrate.getD 0) &&
        decide (0 < td.solutions_corrected_hashrate.getD 0) &&
        decide (0 < td.minerlab_corrected_hashrate.getD 0)) = true)
    · rw [if_pos hv]
      exact mem_log_event_of_ps_le ct _ _ _ _ _ l2 hle
    · rw [if_neg hv]
      exact mem_log_event_of_ps_le ct _ _ _ _ _ l2 hle

lemma calculate_validate_samples_cases (ct : ℕ) (td : ToolData) (db : DB)
    (lastr : Option Sample) (idle : Bool) :
    (calculate_validate ct td db lastr idle).samples = db.samples ∨
    ∃ pre rec, (calculate_validate ct td db lastr idle).samples = pre ++ [rec] ∧
      rec.was_idle = idle ∧ ∀ s ∈ pre, s ∈ db.samples := by
  rcases lastr with _ | last
  · unfold calculate_validate
    dsimp only
    split_ifs <;>
      first
        | exact Or.inl rfl
        | exact Or.inr ⟨_, _, rfl, rfl, fun s hs => hs⟩
  · unfold calculate_validate
    dsimp only
    split_ifs <;>
      first
        | exact Or.inl rfl
        | exact Or.inr ⟨_, _, rfl, rfl, fun s hs => hs⟩
        | exact Or.inr ⟨_, _, rfl, rfl, fun s hs => List.mem_of_mem_filter hs⟩

lemma calculate_after_interval_samples_mem (ct : ℕ) (td : ToolData) (db : DB)
    (lastr : Option Sample) :
    ∀ s ∈ (calculate_after_interval ct td db lastr).samples,
      s ∈ db.samples ∨ s.was_idle = false := by
  intro s hs
  unfold calculate_after_interval at hs
  by_cases hidle : td.idle.getD false = true
  · rw [if_pos hidle] at hs
    exact Or.inl hs
  · rw [if_neg hidle] at hs
    have hfalse : td.idle.getD false = false := by
      revert hidle
      cases td.idle.getD false <;> simp
    have tail : s ∈ (calculate_validate ct td db lastr false).samples →
        s ∈ db.samples ∨ s.was_idle = false := by
      intro hs2
      rcases calculate_validate_samples_cases ct td db lastr false with
        hc | ⟨pre, rec, heq, hwi, hpre⟩
      · rw [hc] at hs2
        exact Or.inl hs2
      · rw [heq] at hs2
        rcases List.mem_append.mp hs2 with hsp | hsr
        · exact Or.inl (hpre s hsp)
        · rw [List.mem_singleton.mp hsr]
          exact Or.inr hwi
    rcases lastr with _ | last
    · dsimp only at hs
      rw [if_neg (by simp : ¬ (false = true))] at hs
      rw [hfalse] at hs
      exact tail hs
    · dsimp only at hs
      by_cases hrec : (last.was_idle && decide ((ct : ℤ) - last.timestamp < 300)) = true
      · rw [if_pos hrec] at hs
        exact Or.inl hs
      · rw [if_neg hrec] at hs
        rw [hfalse] at hs
        exact tail hs

lemma calculate_samples_mem (ct : ℕ) (td : ToolData) (db : DB) :
    ∀ s ∈ (calculate_network_stats ct td db).samples,
      s ∈ db.samples ∨ s.was_idle = false := by
  intro s hs
  unfold calculate_network_stats at hs
  rcases hfl : findLatestSample db.samples with _ | last <;> rw [hfl] at hs
  · exact calculate_after_interval_samples_mem ct td db none s hs
  · dsimp only at hs
    by_cases hint : (ct : ℤ) - last.timestamp < 300
    · rw [if_pos hint] at hs
      exact Or.inl hs
    · rw [if_neg hint] at hs
      exact calculate_after_interval_samples_mem ct td db (some last) s hs

/-- C5 counterexample: a guard-skipped tick is NOT free of deletions — the
skip log append purges old log entries once a newer period is observed.
Here the tick skips (samples unchanged), yet the old log entry is gone. -/
theorem C5_counterexample :
    (calculate_network_stats 31667600 c5_td c5_db).samples = c5_db.samples ∧
    (⟨1000, 30000000, "success", "old entry", none⟩ : LogEntry) ∈ c5_db.logs ∧
    (⟨1000, 30000000, "success", "old entry", none⟩ : LogEntry) ∉
      (calculate_network_stats 31667600 c5_td c5_db).logs := by
  refine ⟨by decide, by decide, by decide⟩

/-- C5 (amended): if the interval guard, the idle guard, or the recovery
guard fires, the engine logs a `skip` event and terminates without touching
the Samples store; the Event Log gains the skip entry through
`log_network_stats_event`, which (as on every append) may purge log
entries older than the latest entry's period. -/
theorem C5_skip_guards_amended (ct : ℕ) (td : ToolData) (db : DB)
    (hskip : (∃ l, findLatestSample db.samples = some l ∧
        (ct : ℤ) - l.timestamp < 300) ∨
      td.idle.getD false = true ∨
      (∃ l, findLatestSample db.samples = some l ∧ l.was_idle = true ∧
        (ct : ℤ) - l.timestamp < 300)) :
    (calculate_network_stats ct td db).samples = db.samples ∧
    ∃ msg, (calculate_network_stats ct td db).logs =
      log_network_stats_event ct "skip" msg none db.logs := by
  unfold calculate_network_stats calculate_after_interval
  rcases hfl : findLatestSample db.samples with _ | last
  · have hidle : td.idle.getD false = true := by
      rcases hskip with ⟨l, hl, _⟩ | h | ⟨l, hl, _, _⟩
      · rw [hfl] at hl
        cases hl
      · exact h
      · rw [hfl] at hl
        cases hl
    dsimp only
    rw [if_pos hidle]
    exact ⟨rfl, "Mining is idle", rfl⟩
  · dsimp only
    by_cases hint : (ct : ℤ) - last.timestamp < 300
    · rw [if_pos hint]
      exact ⟨rfl, "Only seconds since last record", rfl⟩
    · rw [if_neg hint]
      have hidle : td.idle.getD false = true := by
        rcases hskip with ⟨l, hl, hlt⟩ | h | ⟨l, hl, _, hlt⟩
        · rw [hfl] at hl
          cases hl
          exact absurd hlt hint
        · exact h
        · rw [hfl] at hl
          cases hl
          exact absurd hlt hint
      rw [if_pos hidle]
      exact ⟨rfl, "Mining is idle", rfl⟩

/-- Witness for C5 at the concrete store: the interval guard fires. -/
theorem C5_witness :
    (calculate_network_stats 31667600 c5_td c5_db).samples = c5_db.samples ∧
    ∃ msg, (calculate_network_stats 31667600 c5_td c5_db).logs =
      log_network_stats_event 31667600 "skip" msg none c5_db.logs :=
  C5_skip_guards_amended 31667600 c5_td c5_db
    (Or.inl ⟨⟨31667500, 31665600, 1, 1, 1, 1, false⟩, by decide, by decide⟩)

/-- C6: on every evaluation that reaches the rollover check with the newly
computed period anchor strictly newer than the previous Sample's
`period_start` — whether the QLI reading was positive or was recovered by
the historical-mean fallback — exactly the samples with
`timestamp < previous.period_start` are deleted (the rest retained) before
the new sample is appended; and on every log append that observes a newer
period than the latest entry's, exactly the log entries with
`timestamp < latest.period_start` are purged before the new entry is
appended. -/
theorem C6_rollover_retention :
    (∀ (ct : ℕ) (td : ToolData) (db : DB) (last : Sample),
      findLatestSample db.samples = some last →
      ¬ ((ct : ℤ) - last.timestamp < 300) →
      td.idle.getD false = false →
      ((if td.qli_hashrate.getD 0 ≤ 0 then
          (if qli_recent_records db.samples = [] then false else true)
        else true) &&
       decide (0 < td.apool_corrected_hashrate.getD 0) &&
       decide (0 < td.solutions_corrected_hashrate.getD 0) &&
       decide (0 < td.minerlab_corrected_hashrate.getD 0)) = true →
      last.period_start < period_start_calc ct →
      (calculate_network_stats ct td db).samples =
        db.samples.filter (fun s => ¬ ((s.timestamp : ℤ) < last.period_start)) ++
        [⟨ct, period_start_calc ct,
          (if td.qli_hashrate.getD 0 ≤ 0 then
             ((qli_recent_records db.samples).map Sample.qli_hashrate).sum /
               ((qli_recent_records db.samples).length : ℚ)
           else td.qli_hashrate.getD 0),
          td.apool_corrected_hashrate.getD 0,
          td.solutions_corrected_hashrate.getD 0,
          td.minerlab_corrected_hashrate.getD 0, false⟩]) ∧
    (∀ (ct : ℕ) (ty msg : String) (d : Option LogData) (logs : List LogEntry)
      (ll : LogEntry),
      findLatestLog logs = some ll →
      ll.period_start < period_start_log ct →
      log_network_stats_event ct ty msg d logs =
        logs.filter (fun e => ¬ ((e.timestamp : ℤ) < ll.period_start)) ++
          [⟨ct, period_start_log ct, ty, msg, d⟩]) := by
  constructor
  · intro ct td db last hfl hint hidle hpass hroll
    rw [calculate_reaches_validate ct td db
      (fun l hl => by rw [hfl] at hl; cases hl; exact hint) hidle]
    rw [hfl]
    simp only [Bool.and_eq_true, decide_eq_true_eq] at hpass
    obtain ⟨⟨⟨hq, hap⟩, hso⟩, hmi⟩ := hpass
    by_cases h0 : td.qli_hashrate.getD 0 ≤ 0
    · rw [if_pos h0] at hq
      have hrec : ¬ (qli_recent_records db.samples = []) := by
        intro hr
        rw [if_pos hr] at hq
        exact Bool.false_ne_true hq
      rw [calculate_validate_fallback ct td db _ h0 hrec
        (not_le.mpr hap) (not_le.mpr hso) (not_le.mpr hmi)]
      dsimp only
      rw [if_pos hroll, if_pos h0]
    · rw [calculate_validate_commit ct td db _ h0
        (not_le.mpr hap) (not_le.mpr hso) (not_le.mpr hmi)]
      dsimp only
      rw [if_pos hroll, if_neg h0]
  · intro ct ty msg d logs ll hll hlt
    unfold log_network_stats_event
    dsimp only
    rw [hll]
    dsimp only
    rw [if_pos hlt]

/-- Witness for C6 on the QLI-fallback path: the QLI reading is 0, the
historical mean is substituted, and the rollover tick still deletes the
sample older than the previous period anchor before appending the fresh
sample. -/
theorem C6_witness :
    (calculate_network_stats 31667600 c6_td c6_db).samples =
      c6_db.samples.filter (fun s => ¬ ((s.timestamp : ℤ) <
        (⟨31665000, 31060800, 100, 1, 1, 1, false⟩ : Sample).period_start)) ++
      [⟨31667600, period_start_calc 31667600,
        (if c6_td.qli_hashrate.getD 0 ≤ 0 then
           ((qli_recent_records c6_db.samples).map Sample.qli_hashrate).sum /
             ((qli_recent_records c6_db.samples).length : ℚ)
         else c6_td.qli_hashrate.getD 0),
        c6_td.apool_corrected_hashrate.getD 0,
        c6_td.solutions_corrected_hashrate.getD 0,
        c6_td.minerlab_corrected_hashrate.getD 0, false⟩] :=
  C6_rollover_retention.1 31667600 c6_td c6_db
    ⟨31665000, 31060800, 100, 1, 1, 1, false⟩
    (by decide) (by decide) (by decide) (by decide) (by decide)

/-- C1 counterexample: the QLI reading 1000 fails `is_valid_hashrate`
against the persisted history (steady 100s), yet the engine COMMITS the
sample — write-time validation does not consult `is_valid_hashrate`. -/
theorem C1_counterexample :
    is_valid_hashrate 1000 (c1_db.samples.map Sample.qli_hashrate) = false ∧
    (calculate_network_stats 31667600 c1_td c1_db).samples =
      c1_db.samples ++ [⟨31667600, 31665600, 1000, 100, 100, 100, false⟩] := by
  constructor
  · have hne : ¬ ([100, 100, 100, 100, 100] : List ℚ) = [] := by simp
    norm_num [is_valid_hashrate, c1_db, List.insertionSort, List.orderedInsert,
      py_abs, hne]
  · decide

/-- C1 (amended): write-time validation is positivity-based, not
`is_valid_hashrate`-based.  On a tick that passes the guards, each reading
is marked valid iff it is strictly positive (QLI after the fallback
substitution); if any marking fails, a `validation` event carrying the
full reading set and the per-reading pass/fail map is logged and no
Sample is inserted; a Sample is inserted exactly when all four markings
pass. -/
theorem C1_writetime_validation (ct : ℕ) (td : ToolData) (db : DB)
    (hInt : ∀ l, findLatestSample db.samples = some l →
      ¬ ((ct : ℤ) - l.timestamp < 300))
    (hIdle : td.idle.getD false = false) :
    (((if td.qli_hashrate.getD 0 ≤ 0 then
         (if qli_recent_records db.samples = [] then false else true)
       else true) &&
      decide (0 < td.apool_corrected_hashrate.getD 0) &&
      decide (0 < td.solutions_corrected_hashrate.getD 0) &&
      decide (0 < td.minerlab_corrected_hashrate.getD 0)) = false →
      (calculate_network_stats ct td db).samples = db.samples ∧
      (calculate_network_stats ct td db).logs.getLast? =
        some ⟨ct, period_start_log ct, "validation",
          "Skipping record with abnormal values",
          some (.validation
            ⟨td.qli_hashrate.getD 0, td.apool_corrected_hashrate.getD 0,
             td.solutions_corrected_hashrate.getD 0,
             td.minerlab_corrected_hashrate.getD 0⟩
            ⟨(if td.qli_hashrate.getD 0 ≤ 0 then
                (if qli_recent_records db.samples = [] then false else true)
              else true),
             decide (0 < td.apool_corrected_hashrate.getD 0),
             decide (0 < td.solutions_corrected_hashrate.getD 0),
             decide (0 < td.minerlab_corrected_hashrate.getD 0)⟩)⟩) ∧
    (((if td.qli_hashrate.getD 0 ≤ 0 then
         (if qli_recent_records db.samples = [] then false else true)
       else true) &&
      decide (0 < td.apool_corrected_hashrate.getD 0) &&
      decide (0 < td.solutions_corrected_hashrate.getD 0) &&
      decide (0 < td.minerlab_corrected_hashrate.getD 0)) = true →
      ∃ kept, (calculate_network_stats ct td db).samples =
        kept ++ [⟨ct, period_start_calc ct,
          (if td.qli_hashrate.getD 0 ≤ 0 then
             ((qli_recent_records db.samples).map Sample.qli_hashrate).sum /
               ((qli_recent_records db.samples).length : ℚ)
           else td.qli_hashrate.getD 0),
          td.apool_corrected_hashrate.getD 0,
          td.solutions_corrected_hashrate.getD 0,
          td.minerlab_corrected_hashrate.getD 0, false⟩]) := by
  rw [calculate_reaches_validate ct td db hInt hIdle]
  constructor
  · intro hfail
    exact calculate_validate_fail ct td db _ hfail
  · intro hpass
    simp only [Bool.and_eq_true, decide_eq_true_eq] at hpass
    obtain ⟨⟨⟨hq, hap⟩, hso⟩, hmi⟩ := hpass
    by_cases h0 : td.qli_hashrate.getD 0 ≤ 0
    · rw [if_pos h0] at hq
      have hrec : ¬ (qli_recent_records db.samples = []) := by
        intro hr
        rw [if_pos hr] at hq
        exact Bool.false_ne_true hq
      refine ⟨(match findLatestSample db.samples with
        | some last =>
            if last.period_start < period_start_calc ct then
              db.samples.filter
                (fun s => ¬ ((s.timestamp : ℤ) < last.period_start))
            else db.samples
        | none => db.samples), ?_⟩
      rw [calculate_validate_fallback ct td db _ h0 hrec
        (not_le.mpr hap) (not_le.mpr hso) (not_le.mpr hmi)]
      rw [if_pos h0]
    · refine ⟨(match findLatestSample db.samples with
        | some last =>
            if last.period_start < period_start_calc ct then
              db.samples.filter
                (fun s => ¬ ((s.timestamp : ℤ) < last.period_start))
            else db.samples
        | none => db.samples), ?_⟩
      rw [calculate_validate_commit ct td db _ h0
        (not_le.mpr hap) (not_le.mpr hso) (not_le.mpr hmi)]
      rw [if_neg h0]

/-- Witness for C1 (amended): with all four readings positive, the sample
is committed. -/
theorem C1_witness :
    ∃ kept, (calculate_network_stats 31667600 c1_td c1_db).samples =
      kept ++ [⟨31667600, period_start_calc 31667600,
        (if c1_td.qli_hashrate.getD 0 ≤ 0 then
           ((qli_recent_records c1_db.samples).map Sample.qli_hashrate).sum /
             ((qli_recent_records c1_db.samples).length : ℚ)
         else c1_td.qli_hashrate.getD 0),
        c1_td.apool_corrected_hashrate.getD 0,
        c1_td.solutions_corrected_hashrate.getD 0,
        c1_td.minerlab_corrected_hashrate.getD 0, false⟩] :=
  (C1_writetime_validation 31667600 c1_td c1_db
    (fun l hl => by
      have h : findLatestSample c1_db.samples =
          some ⟨31666900, 31665600, 100, 100, 100, 100, false⟩ := by decide
      rw [h] at hl
      cases hl
      decide)
    (by decide)).2 (by decide)

/-- C7: on a guard-passing tick with a non-positive QLI reading, a
`warning` is logged; if positive-QLI history exists, the arithmetic mean
of the most recent at most 5 such samples is substituted and — with the
other readings positive — the sample is committed with that mean and the
QLI flag marked valid; with no such history, QLI validation stays failed
and the tick terminates without touching the Samples store. -/
theorem C7_qli_fallback (ct : ℕ) (td : ToolData) (db : DB)
    (hInt : ∀ l, findLatestSample db.samples = some l →
      ¬ ((ct : ℤ) - l.timestamp < 300))
    (hIdle : td.idle.getD false = false)
    (h4 : td.qli_hashrate.getD 0 ≤ 0) :
    ((⟨ct, period_start_log ct, "warning", "QLI hashrate is non-positive",
        none⟩ : LogEntry) ∈ (calculate_network_stats ct td db).logs) ∧
    (¬ (qli_recent_records db.samples = []) →
      ¬ (td.apool_corrected_hashrate.getD 0 ≤ 0) →
      ¬ (td.solutions_corrected_hashrate.getD 0 ≤ 0) →
      ¬ (td.minerlab_corrected_hashrate.getD 0 ≤ 0) →
      ∃ kept, (calculate_network_stats ct td db).samples =
        kept ++ [⟨ct, period_start_calc ct,
          ((qli_recent_records db.samples).map Sample.qli_hashrate).sum /
            ((qli_recent_records db.samples).length : ℚ),
          td.apool_corrected_hashrate.getD 0,
          td.solutions_corrected_hashrate.getD 0,
          td.minerlab_corrected_hashrate.getD 0, false⟩] ∧
        (calculate_network_stats ct td db).logs.getLast? =
          some ⟨ct, period_start_log ct, "success",
            "Successfully recorded network stats",
            some (.validation
              ⟨td.qli_hashrate.getD 0, td.apool_corrected_hashrate.getD 0,
               td.solutions_corrected_hashrate.getD 0,
               td.minerlab_corrected_hashrate.getD 0⟩
              ⟨true, true, true, true⟩)⟩) ∧
    (qli_recent_records db.samples = [] →
      (calculate_network_stats ct td db).samples = db.samples ∧
      (calculate_network_stats ct td db).logs.getLast? =
        some ⟨ct, period_start_log ct, "validation",
          "Skipping record with abnormal values",
          some (.validation
            ⟨td.qli_hashrate.getD 0, td.apool_corrected_hashrate.getD 0,
             td.solutions_corrected_hashrate.getD 0,
             td.minerlab_corrected_hashrate.getD 0⟩
            ⟨false,
             decide (0 < td.apool_corrected_hashrate.getD 0),
             decide (0 < td.solutions_corrected_hashrate.getD 0),
             decide (0 < td.minerlab_corrected_hashrate.getD 0)⟩)⟩) := by
  rw [calculate_reaches_validate ct td db hInt hIdle]
  refine ⟨warning_mem_calculate_validate ct td db _ h4, ?_, ?_⟩
  · intro hrec hap hso hmi
    refine ⟨(match findLatestSample db.samples with
      | some last =>
          if last.period_start < period_start_calc ct then
            db.samples.filter
              (fun s => ¬ ((s.timestamp : ℤ) < last.period_start))
          else db.samples
      | none => db.samples), ?_, ?_⟩
    · rw [calculate_validate_fallback ct td db _ h4 hrec hap hso hmi]
    · rw [calculate_validate_fallback ct td db _ h4 hrec hap hso hmi]
      exact log_event_getLast ct _ _ _ _
  · intro hr
    have hres := calculate_validate_fail ct td db (findLatestSample db.samples)
      (by rw [if_pos h4, if_pos hr]; simp)
    rw [if_pos h4, if_pos hr] at hres
    exact hres

/-- Witness for C7: QLI reading 0 with one positive-history sample gets
the mean substituted and committed. -/
theorem C7_witness :
    ((⟨31667600, period_start_log 31667600, "warning",
        "QLI hashrate is non-positive", none⟩ : LogEntry) ∈
      (calculate_network_stats 31667600 c7_td c7_db).logs) ∧
    (¬ (qli_recent_records c7_db.samples = []) →
      ¬ (c7_td.apool_corrected_hashrate.getD 0 ≤ 0) →
      ¬ (c7_td.solutions_corrected_hashrate.getD 0 ≤ 0) →
      ¬ (c7_td.minerlab_corrected_hashrate.getD 0 ≤ 0) →
      ∃ kept, (calculate_network_stats 31667600 c7_td c7_db).samples =
        kept ++ [⟨31667600, period_start_calc 31667600,
          ((qli_recent_records c7_db.samples).map Sample.qli_hashrate).sum /
            ((qli_recent_records c7_db.samples).length : ℚ),
          c7_td.apool_corrected_hashrate.getD 0,
          c7_td.solutions_corrected_hashrate.getD 0,
          c7_td.minerlab_corrected_hashrate.getD 0, false⟩] ∧
        (calculate_network_stats 31667600 c7_td c7_db).logs.getLast? =
          some ⟨31667600, period_start_log 31667600, "success",
            "Successfully recorded network stats",
            some (.validation
              ⟨c7_td.qli_hashrate.getD 0, c7_td.apool_corrected_hashrate.getD 0,
               c7_td.solutions_corrected_hashrate.getD 0,
               c7_td.minerlab_corrected_hashrate.getD 0⟩
              ⟨true, true, true, true⟩)⟩) ∧
    (qli_recent_records c7_db.samples = [] →
      (calculate_network_stats 31667600 c7_td c7_db).samples = c7_db.samples ∧
      (calculate_network_stats 31667600 c7_td c7_db).logs.getLast? =
        some ⟨31667600, period_start_log 31667600, "validation",
          "Skipping record with abnormal values",
          some (.validation
            ⟨c7_td.qli_hashrate.getD 0, c7_td.apool_corrected_hashrate.getD 0,
             c7_td.solutions_corrected_hashrate.getD 0,
             c7_td.minerlab_corrected_hashrate.getD 0⟩
            ⟨false,
             decide (0 < c7_td.apool_corrected_hashrate.getD 0),
             decide (0 < c7_td.solutions_corrected_hashrate.getD 0),
             decide (0 < c7_td.minerlab_corrected_hashrate.getD 0)⟩)⟩) :=
  C7_qli_fallback 31667600 c7_td c7_db
    (fun l hl => by
      have h : findLatestSample c7_db.samples =
          some ⟨31666900, 31665600, 100, 100, 100, 100, false⟩ := by decide
      rw [h] at hl
      cases hl
      decide)
    (by decide) (by decide)

/-- C10: every sample the engine inserts carries `was_idle = false` (the
idle guard returns before the commit whenever the snapshot is idle), so a
store containing no idle-marked sample still contains none after any tick,
and in such a store the recovery guard's trigger (latest sample marked
idle) can never hold. -/
theorem C10_samples_never_idle (ct : ℕ) (td : ToolData) (db : DB) :
    (∀ s ∈ (calculate_network_stats ct td db).samples,
      s ∈ db.samples ∨ s.was_idle = false) ∧
    ((∀ s ∈ db.samples, s.was_idle = false) →
      ∀ s ∈ (calculate_network_stats ct td db).samples, s.was_idle = false) ∧
    ((∀ s ∈ db.samples, s.was_idle = false) →
      ∀ l, findLatestSample (calculate_network_stats ct td db).samples = some l →
        l.was_idle = false) := by
  refine ⟨calculate_samples_mem ct td db, ?_, ?_⟩
  · intro hall s hs
    rcases calculate_samples_mem ct td db s hs with h | h
    · exact hall s h
    · exact h
  · intro hall l hl
    have hm := findLatestSample_mem hl
    rcases calculate_samples_mem ct td db l hm with h | h
    · exact hall l h
    · exact h

/-- Witness for C10: the sample committed in the C1 scenario has
`was_idle = false`. -/
theorem C10_witness :
    (⟨31667600, 31665600, 1000, 100, 100, 100, false⟩ : Sample).was_idle =
      false :=
  (C10_samples_never_idle 31667600 c1_td c1_db).2.1 (by decide)
    ⟨31667600, 31665600, 1000, 100, 100, 100, false⟩ (by decide)
